import Mathlib

/-!
Verification development for the `ronaldslc/pgx` PostgreSQL client core.

The definitions below are shallow embeddings of the Go source:
* `src/pgproto3/frontend.go` — the blocking `io.Reader` framer variant with
  the `ReceivedMessages` ring queue (`Read`, `Write`, `Kth`, `Backward`,
  `Forward`, `SetCapacity`) and `Frontend.Receive`.
* `src/unnamed/part_003` — the `syscall.RawConn` framer variant (its
  `ReceivedMessages` methods coincide with `frontend.go` except `Forward`).
* `src/unnamed/part_000` — `logQueryArgs`.
* `src/unnamed/part_001` — the `Rows` cursor (`BatchNext`, `Scan`, `Close`,
  `fatal`, `nextColumn`).

Go machine integers are embedded as `Nat`; every place where the Go code
could take a different branch because of negative values is guarded in the
source by `<= 0` comparisons, which map to `= 0` on `Nat` (noted per
definition).  Go byte slices are `List Nat`, `nil`-able slices are
`Option (List Nat)`, and fallible functions return `Except`/`Option`.
-/

namespace Pgx

/-- The 21 backend message kinds registered in `NewFrontend`
(`src/pgproto3/frontend.go` lines 36–56).  The Go code stores one flyweight
instance per kind; message identity is its kind. -/
inductive BackendMessage where
  | parseComplete
  | bindComplete
  | closeComplete
  | notificationResponse
  | commandComplete
  | copyData
  | dataRow
  | errorResponse
  | copyInResponse
  | copyOutResponse
  | emptyQueryResponse
  | backendKeyData
  | noData
  | noticeResponse
  | authentication
  | parameterStatus
  | parameterDescription
  | rowDescription
  | functionCallResponse
  | copyBothResponse
  | readyForQuery
  deriving DecidableEq, Repr

/-- `backendMsgFlyweights` array of `NewFrontend`
(`src/pgproto3/frontend.go` lines 36–56): maps the header tag byte to the
flyweight message, `none` for the 235 unset entries. -/
def backendMsgFlyweights (tag : Nat) : Option BackendMessage :=
  match tag with
  | 49 => some .parseComplete          -- '1'
  | 50 => some .bindComplete           -- '2'
  | 51 => some .closeComplete          -- '3'
  | 65 => some .notificationResponse   -- 'A'
  | 67 => some .commandComplete        -- 'C'
  | 100 => some .copyData              -- 'd'
  | 68 => some .dataRow                -- 'D'
  | 69 => some .errorResponse          -- 'E'
  | 71 => some .copyInResponse         -- 'G'
  | 72 => some .copyOutResponse        -- 'H'
  | 73 => some .emptyQueryResponse     -- 'I'
  | 75 => some .backendKeyData         -- 'K'
  | 110 => some .noData                -- 'n'
  | 78 => some .noticeResponse         -- 'N'
  | 82 => some .authentication         -- 'R'
  | 83 => some .parameterStatus        -- 'S'
  | 116 => some .parameterDescription  -- 't'
  | 84 => some .rowDescription         -- 'T'
  | 86 => some .functionCallResponse   -- 'V'
  | 87 => some .copyBothResponse       -- 'W'
  | 90 => some .readyForQuery          -- 'Z'
  | _ => none

/-- `ReceivedMessages` (`src/pgproto3/frontend.go` lines 20–26, identical in
`src/unnamed/part_003` lines 21–27).  `msgs` holds `BackendMessage`
interface values (`none` = Go `nil`, the zero value of a fresh slot), and
`msgBodies` holds `nil`-able byte slices.  The Go element type is the
`BackendMessage` interface, so the structure is generic in the element
type `α`. -/
structure ReceivedMessages (α : Type) where
  msgs : List (Option α)
  msgBodies : List (Option (List Nat))
  rp : Nat
  wp : Nat
  readable : Nat
  deriving DecidableEq, Repr

/-- `NewReceivedMessages` (`src/pgproto3/frontend.go` lines 144–146):
`make` produces zero-valued (nil) slots. -/
def NewReceivedMessages (α : Type) (n : Nat) : ReceivedMessages α :=
  { msgs := List.replicate n none
    msgBodies := List.replicate n none
    rp := 0
    wp := 0
    readable := 0 }

namespace ReceivedMessages

variable {α : Type}

/-- `Len` (`src/pgproto3/frontend.go` lines 202–204). -/
def Len (r : ReceivedMessages α) : Nat := r.msgs.length

/-- `Readable` (`src/pgproto3/frontend.go` lines 192–194). -/
def Readable (r : ReceivedMessages α) : Nat := r.readable

/-- `WriteCapacity` (`src/pgproto3/frontend.go` lines 197–199):
`len(r.msgs) - r.Readable()`.  In Go this is a (possibly negative) `int`;
the source only ever compares it with `<= 0`, which agrees with `= 0` on
the truncated `Nat` subtraction used here. -/
def WriteCapacity (r : ReceivedMessages α) : Nat := r.Len - r.Readable

/-- `Read` (`src/pgproto3/frontend.go` lines 149–162).  Returns the pair at
`rp`, advances `rp` with wrap-around and decrements `readable`; errors with
"no message" when nothing is readable (`Readable() <= 0` on a Go `int`). -/
def Read (r : ReceivedMessages α) :
    Except String ((Option α × Option (List Nat)) × ReceivedMessages α) :=
  if r.Readable = 0 then .error "no message"
  else
    .ok ((r.msgs.getD r.rp none, r.msgBodies.getD r.rp none),
      { r with
        rp := if r.rp = r.Len - 1 then 0 else r.rp + 1
        readable := r.readable - 1 })

/-- `Kth` (`src/pgproto3/frontend.go` lines 167–170): returns the slot at
`(rp + k) % Len` without touching `rp`, `wp` or `readable` (embedded as a
pure function of the state, mirroring that the Go method assigns no
field). -/
def Kth (r : ReceivedMessages α) (k : Nat) : Option α × Option (List Nat) :=
  (r.msgs.getD ((r.rp + k) % r.Len) none,
   r.msgBodies.getD ((r.rp + k) % r.Len) none)

/-- `Write` (`src/pgproto3/frontend.go` lines 174–189): stores the pair at
`wp`, advances `wp` with wrap-around, increments `readable`; fails with
`io.ErrShortWrite` when `WriteCapacity() <= 0`. -/
def Write (r : ReceivedMessages α) (msg : α) (msgBody : Option (List Nat)) :
    Except String (ReceivedMessages α) :=
  if r.WriteCapacity = 0 then .error "short write"
  else
    .ok { r with
      msgs := r.msgs.set r.wp (some msg)
      msgBodies := r.msgBodies.set r.wp msgBody
      wp := if r.wp = r.Len - 1 then 0 else r.wp + 1
      readable := r.readable + 1 }

/-- `Backward` (`src/pgproto3/frontend.go` lines 207–217): un-reads one
message unless all slots are already readable (`WriteCapacity() <= 0`). -/
def Backward (r : ReceivedMessages α) : ReceivedMessages α :=
  if r.WriteCapacity = 0 then r
  else
    { r with
      readable := r.readable + 1
      rp := if r.rp = 0 then r.Len - 1 else r.rp - 1 }

/-- `Forward` of the blocking variant (`src/pgproto3/frontend.go` lines
220–230): skips one readable message, advancing `rp` and decrementing
`readable`. -/
def Forward (r : ReceivedMessages α) : ReceivedMessages α :=
  if r.Readable = 0 then r
  else
    { r with
      rp := if r.rp = r.Len - 1 then 0 else r.rp + 1
      readable := r.readable - 1 }

/-- `Forward` of the `syscall.RawConn` variant (`src/unnamed/part_003`
lines 217–227).  Note the source executes `r.readable++` where the other
variant executes `r.readable--`. -/
def ForwardNB (r : ReceivedMessages α) : ReceivedMessages α :=
  if r.Readable = 0 then r
  else
    { r with
      rp := if r.rp = r.Len - 1 then 0 else r.rp + 1
      readable := r.readable + 1 }

/-- `SetCapacity` (`src/pgproto3/frontend.go` lines 234–255, identical in
`src/unnamed/part_003` lines 229–250).  The Go body allocates local arrays
`nmsgs`/`nmsgBodies` of the new capacity and `copy`-s the stored pairs
into them, but never assigns them back to `r` — the copies are discarded,
so the observable effect is only the field mutations: on shrink below the
readable count `rp` is advanced and `readable` clamped, and in every
non-trivial call `rp` is reset to 0 and `wp` to `readable`, while `msgs`,
`msgBodies` and hence `Len` stay what they were.  `none` models the Go
runtime panic of the slice expressions: `nmsgs[r.rp:]` panics when `rp`
exceeds the new capacity, `r.msgs[r.rp:]`/`r.msgs[0:r.wp]` when `rp` or
`wp` exceeds `Len`; on states reachable through the queue API only the
first can fire. -/
def SetCapacity (r : ReceivedMessages α) (capacity : Nat) :
    Option (ReceivedMessages α) :=
  if r.Len = capacity then some r
  else
    let r1 :=
      if capacity < r.Readable then
        { r with
          rp := (r.rp + r.readable - capacity) % r.Len
          readable := capacity }
      else r
    if capacity < r1.rp ∨ r1.msgs.length < r1.rp ∨ r1.msgs.length < r1.wp then
      none
    else
      some { r1 with rp := 0, wp := r1.readable }

/-- The state produced by a successful `Read` (the record assignments of
`src/pgproto3/frontend.go` lines 154–160), named so that lemmas can speak
about it. -/
def readNext (r : ReceivedMessages α) : ReceivedMessages α :=
  { r with
    rp := if r.rp = r.Len - 1 then 0 else r.rp + 1
    readable := r.readable - 1 }

/-- The state produced by a successful `Write` (the record assignments of
`src/pgproto3/frontend.go` lines 179–186). -/
def writeNext (r : ReceivedMessages α) (m : α) (b : Option (List Nat)) :
    ReceivedMessages α :=
  { r with
    msgs := r.msgs.set r.wp (some m)
    msgBodies := r.msgBodies.set r.wp b
    wp := if r.wp = r.Len - 1 then 0 else r.wp + 1
    readable := r.readable + 1 }

/-- The sequence of readable `(message, body)` pairs, oldest first: slot
`(rp + i) % Len` for `i < readable`.  This is the abstract queue contents
of a `ReceivedMessages` state. -/
def absQueue (r : ReceivedMessages α) : List (Option α × Option (List Nat)) :=
  (List.range r.readable).map r.Kth

/-- Well-formedness of a `ReceivedMessages` state; established by
`NewReceivedMessages` and preserved by `Read`/`Write` (proved below). -/
def Inv (r : ReceivedMessages α) : Prop :=
  r.msgBodies.length = r.msgs.length ∧
  r.readable ≤ r.msgs.length ∧
  r.wp = (r.rp + r.readable) % r.msgs.length ∧
  (r.rp < r.msgs.length ∨ (r.msgs.length = 0 ∧ r.rp = 0))

instance (r : ReceivedMessages α) : Decidable (Inv r) := by
  unfold Inv; infer_instance

end ReceivedMessages

/-- One client operation on a `ReceivedMessages` queue: a `Write` of a
message/body pair or a `Read`. -/
inductive QOp (α : Type) where
  | wr (m : α) (b : Option (List Nat))
  | rd
  deriving DecidableEq

/-- Observable outcome of one queue operation: whether a `Write` succeeded,
and the pair (or `none` for the "no message" error) returned by a `Read`. -/
inductive QEvent (α : Type) where
  | wrote (ok : Bool)
  | readRes (res : Option (Option α × Option (List Nat)))
  deriving DecidableEq

/-- Runs a sequence of operations against the ring-queue implementation;
failed operations leave the state unchanged, exactly as the Go methods
return early on error. -/
def runImpl {α : Type} :
    ReceivedMessages α → List (QOp α) → ReceivedMessages α × List (QEvent α)
  | r, [] => (r, [])
  | r, .wr m b :: ops =>
    match r.Write m b with
    | .ok r' => let p := runImpl r' ops; (p.1, .wrote true :: p.2)
    | .error _ => let p := runImpl r ops; (p.1, .wrote false :: p.2)
  | r, .rd :: ops =>
    match r.Read with
    | .ok (v, r') => let p := runImpl r' ops; (p.1, .readRes (some v) :: p.2)
    | .error _ => let p := runImpl r ops; (p.1, .readRes none :: p.2)

/-- Runs the same operations against a plain FIFO list of capacity `cap`:
`wr` appends at the back when there is room, `rd` removes the front
element, the earliest written among those not yet read. -/
def runSpec {α : Type} (cap : Nat) :
    List (Option α × Option (List Nat)) → List (QOp α) →
      List (Option α × Option (List Nat)) × List (QEvent α)
  | q, [] => (q, [])
  | q, .wr m b :: ops =>
    if q.length < cap then
      let p := runSpec cap (q ++ [(some m, b)]) ops
      (p.1, .wrote true :: p.2)
    else
      let p := runSpec cap q ops
      (p.1, .wrote false :: p.2)
  | q, .rd :: ops =>
    match q with
    | [] => let p := runSpec cap [] ops; (p.1, .readRes none :: p.2)
    | v :: t => let p := runSpec cap t ops; (p.1, .readRes (some v) :: p.2)

/-- One result of the socket reader backing `rbuf.ReadFrom`: a chunk of
bytes (possibly empty, a non-blocking read with no data) or a read
error. -/
inductive ReadEvent where
  | chunk (bytes : List Nat)
  | fail
  deriving DecidableEq, Repr

/-- Modelled from the spec: the `rbuf.FixedSizeRingBuf` library
(`github.com/mysilkway/rbuf`) is an external collaborator (§4.1 RingBuf);
the ring buffer is a byte FIFO and `ReadFrom(reader)` pulls the reader's
next result into it, propagating reader errors.  An exhausted source reads
as an error (EOF). -/
def readFromSource (buf : List Nat) (src : List ReadEvent) :
    Except String (List Nat × List ReadEvent) :=
  match src with
  | [] => .error "read eof"
  | .chunk bs :: rest => .ok (buf ++ bs, rest)
  | .fail :: _ => .error "read fail"

/-- `binary.BigEndian.Uint32` over the four header length bytes
(`src/pgproto3/frontend.go` line 97). -/
def beUint32 (bs : List Nat) : Nat :=
  bs.foldl (fun a b => a * 256 + b % 256) 0

/-- The message-body loop of `Frontend.Receive`
(`src/pgproto3/frontend.go` lines 103–116): while body bytes are missing,
`ReadFrom` the socket (one source event per iteration, exactly as the Go
loop issues one `ReadFrom` per pass) and then drain
`min need (available)` bytes from the ring buffer into the body. -/
def readBody (buf : List Nat) (src : List ReadEvent) (acc : List Nat)
    (need : Nat) : Except String (List Nat × List Nat × List ReadEvent) :=
  if need = 0 then .ok (acc, buf, src)
  else
    match src with
    | [] => .error "read eof"
    | .fail :: _ => .error "read fail"
    | .chunk bs :: rest =>
      readBody ((buf ++ bs).drop (min need (buf ++ bs).length)) rest
        (acc ++ (buf ++ bs).take (min need (buf ++ bs).length))
        (need - min need (buf ++ bs).length)

/-- Body-length computation and body read for one completed 5-byte header
(`src/pgproto3/frontend.go` lines 97–117): `bodyLen` is the big-endian
`uint32` of bytes 1–4 minus 4 (a Go `int`, hence `Int` here), and a body
is read only when `bodyLen > 0` (otherwise the message body stays
`nil`). -/
def decodeStep (buf : List Nat) (src : List ReadEvent) (hdr : List Nat) :
    Except String (Option (List Nat) × List Nat × List ReadEvent) :=
  if 0 < (beUint32 (hdr.drop 1) : Int) - 4 then
    match readBody buf src [] ((beUint32 (hdr.drop 1) : Int) - 4).toNat with
    | .error e => .error e
    | .ok (body, buf2, src2) => .ok (some body, buf2, src2)
  else .ok (none, buf, src)

/-- Control position inside `Frontend.Receive`: at the outer loop
condition (line 76), or inside the inner `for b.rb.Avail() > 0` loop
(line 83). -/
inductive RcvPhase where
  | outer
  | inner
  deriving DecidableEq, Repr

/-- `Frontend.Receive` (`src/pgproto3/frontend.go` lines 68–142) as a
fuelled loop.  State: ring-buffer contents `buf`, remaining socket results
`src`, the queue `r`, the header bytes read so far `hAcc` with `hNeed`
still missing (Go: `headerSlice`), and the count `w` of messages written
so far.  `none` means the fuel ran out (the Go loop can spin on empty
non-blocking reads); `some (.error e)` is an error return; `some (.ok _)`
is a `nil` return carrying the final queue, buffer, source and write
count; error returns also carry the queue state and write count, since
the Go function mutates `rmsgs` in place before returning. -/
def receiveLoop (fuel : Nat) (ph : RcvPhase) (buf : List Nat)
    (src : List ReadEvent) (r : ReceivedMessages BackendMessage)
    (hAcc : List Nat) (hNeed : Nat) (w : Nat) :
    Option (Except
      (String × ReceivedMessages BackendMessage × Nat)
      (ReceivedMessages BackendMessage × List Nat × List ReadEvent × Nat)) :=
  match fuel with
  | 0 => none
  | fuel + 1 =>
    match ph with
    | .outer =>
      -- line 76: `for rmsgs.Readable() <= 0 || len(headerSlice) < len(header)`
      if r.Readable = 0 ∨ hNeed < 5 then
        match readFromSource buf src with
        | .error e => some (.error (e, r, w))
        | .ok (buf2, src2) => receiveLoop fuel .inner buf2 src2 r hAcc hNeed w
      else some (.ok (r, buf, src, w))
    | .inner =>
      -- line 83: `for b.rb.Avail() > 0`
      if buf.length = 0 then receiveLoop fuel .outer buf src r hAcc hNeed w
      else
        -- lines 85–94: read into the header slice, break on partial header
        if 0 < hNeed - min hNeed buf.length then
          receiveLoop fuel .outer (buf.drop (min hNeed buf.length)) src r
            (hAcc ++ buf.take (min hNeed buf.length))
            (hNeed - min hNeed buf.length) w
        else
          match decodeStep (buf.drop (min hNeed buf.length)) src
              (hAcc ++ buf.take (min hNeed buf.length)) with
          | .error e => some (.error (e, r, w))
          | .ok (mBody, buf3, src3) =>
            -- lines 120–123: flyweight lookup by tag byte
            match backendMsgFlyweights
                ((hAcc ++ buf.take (min hNeed buf.length)).getD 0 0) with
            | none => some (.error ("unknown message type", r, w))
            | some msg =>
              -- lines 126–128: write to the queue
              match r.Write msg mBody with
              | .error e => some (.error (e, r, w))
              | .ok r2 =>
                -- lines 131–133: stop when the queue is full
                if r2.WriteCapacity = 0 then some (.ok (r2, buf3, src3, w + 1))
                else receiveLoop fuel .inner buf3 src3 r2 [] 5 (w + 1)

/-- The queue state and written-message count at any `Receive` return:
the Go function mutates `rmsgs` in place, so both exist whether the
return is an error or `nil`. -/
def receiveFinal :
    Except (String × ReceivedMessages BackendMessage × Nat)
      (ReceivedMessages BackendMessage × List Nat × List ReadEvent × Nat) →
    ReceivedMessages BackendMessage × Nat
  | .error (_, r, w) => (r, w)
  | .ok (r, _, _, w) => (r, w)

/-- Entry point of `Frontend.Receive`: fresh 5-byte header slice, outer
loop condition checked first. -/
def Receive (fuel : Nat) (buf : List Nat) (src : List ReadEvent)
    (rmsgs : ReceivedMessages BackendMessage) :
    Option (Except
      (String × ReceivedMessages BackendMessage × Nat)
      (ReceivedMessages BackendMessage × List Nat × List ReadEvent × Nat)) :=
  receiveLoop fuel .outer buf src rmsgs [] 5 0

/-- A two-slot queue holding one readable message at slot 0, with body
`[7]`. -/
def demoC3 : ReceivedMessages BackendMessage :=
  { msgs := [some .parseComplete, none]
    msgBodies := [some [7], none]
    rp := 0
    wp := 1
    readable := 1 }

/-- The state of `demoC3` after one successful `Read`. -/
def demoC3read : ReceivedMessages BackendMessage :=
  { msgs := [some .parseComplete, none]
    msgBodies := [some [7], none]
    rp := 1
    wp := 1
    readable := 0 }

/-- A two-slot queue with exactly one readable message, used to compare
the two `Forward` variants. -/
def demoFwd : ReceivedMessages BackendMessage :=
  { msgs := [some .parseComplete, some .bindComplete]
    msgBodies := [none, none]
    rp := 0
    wp := 1
    readable := 1 }

/-- The queue reached from `NewReceivedMessages 2` by writing
`(ParseComplete, [1])` and `(BindComplete, [2])` and then reading once:
`rp = 1`, `readable = 1`, and slot 0 still holds the already-read pair. -/
def demoKth : ReceivedMessages BackendMessage :=
  (runImpl (NewReceivedMessages BackendMessage 2)
    [.wr .parseComplete (some [1]), .wr .bindComplete (some [2]), .rd]).1

/-- A concrete operation sequence: two writes, then three reads (the last
read hits the empty queue). -/
def demoOps : List (QOp BackendMessage) :=
  [.wr .parseComplete (some [1]), .wr .bindComplete (some [2]),
   .rd, .rd, .rd]

/-- The queue reached from `NewReceivedMessages 4` by writing
`(ParseComplete, [0])`, `(BindComplete, [1])`, `(CloseComplete, [2])` and
reading once: `rp = 1`, `wp = 3`, two readable messages
`[(BindComplete, [1]), (CloseComplete, [2])]`. -/
def demoSetCap : ReceivedMessages BackendMessage :=
  (runImpl (NewReceivedMessages BackendMessage 4)
    [.wr .parseComplete (some [0]), .wr .bindComplete (some [1]),
     .wr .closeComplete (some [2]), .rd]).1

/-- The queue reached from `NewReceivedMessages 4` by writing three
messages, reading all three, and writing a fourth: `rp = 3`, `wp = 0`,
one readable message in slot 3. -/
def demoSetCapWrap : ReceivedMessages BackendMessage :=
  (runImpl (NewReceivedMessages BackendMessage 4)
    [.wr .parseComplete none, .wr .bindComplete none, .wr .closeComplete none,
     .rd, .rd, .rd, .wr .noData none]).1

/-- The queue produced by receiving one bodyless `ReadyForQuery` message
into a fresh capacity-3 queue. -/
def demoRecvAfter : ReceivedMessages BackendMessage :=
  { msgs := [some .readyForQuery, none, none]
    msgBodies := [none, none, none]
    rp := 0
    wp := 1
    readable := 1 }

/-- Error values of the `pgx` package relevant to the cursor:
`ProtocolError` (a distinguished string type in the source),
`scanArgError{col, err}` (`src/unnamed/part_001` lines 254–261), and plain
`errors.New`/`errors.Errorf` errors. -/
inductive PgError where
  | protocolError (s : String)
  | scanArgError (col : Nat) (cause : String)
  | plainError (s : String)
  deriving DecidableEq, Repr

/-- Modelled from the spec: the per-kind `Decode(body)` implementations of
the backend messages live outside `src/` (§3 "Each has a Decode(body)
operation"), so queue entries carry their decoded content directly: a
RowDescription's column type OIDs, a DataRow's (nil-able) column values, a
CommandComplete, a message handled by `processContextFreeMsg` (also not
under `src/`; §4.7 step 4: notices, parameter status, ErrorResponse — the
latter yielding an error), or a message whose `Decode` fails. -/
inductive CursorMsg where
  | rowDesc (oids : List Nat)
  | dataRow (vals : List (Option (List Nat)))
  | cmdComplete
  | ctxMsg (res : Option PgError)
  | badDecode (e : String)
  deriving DecidableEq, Repr

/-- Modelled from the spec: outcome of one `frontend.Receive` call inside
`batchRead` (`src/unnamed/part_001` lines 241–252 and §4.2): a batch of
decoded messages, a non-fatal net timeout, or a fatal read error (which
`batchRead` answers with `conn.die`). -/
inductive NetEvent where
  | deliver (ms : List CursorMsg)
  | timeoutFail
  | ioFail
  deriving DecidableEq, Repr

/-- `Rows` (`src/unnamed/part_001` lines 45–65) together with the parts of
`Conn` it drives: the connection's `rmsgs` queue, the pending socket
results (`incoming`), the codec registry membership test
`connInfo` (`DataTypeForOID` succeeds or not), the connection dead-latch
`connDead` (modelled from the spec, §7), and the observable outcome of the
`Close` log calls (`loggedInfo` = the `rowCount` value logged at Info
level, `loggedError` = an Error-level log was emitted); `startTime`,
`sql`, `args`, batch and pool back-references carry no behavior for the
claims and are omitted. -/
structure RowsState where
  rmsgs : ReceivedMessages CursorMsg
  incoming : List NetEvent
  values : List (List (Option (List Nat)))
  fields : List Nat
  rowCount : Nat
  columnIdx : Nat
  err : Option PgError
  closed : Bool
  unlockConn : Bool
  connDead : Bool
  loggedInfo : Option Nat
  loggedError : Bool
  pendingRowCount : Nat
  rowIdx : Nat
  connInfo : Nat → Bool

/-- Modelled from the spec: `Conn.termContext` is not under `src/`.  With
no context cancellation in flight it returns the error unchanged (§4.7
Close), and per §7 a `ProtocolError` (framing/message-shape violation) is
fatal to the connection — the connection is killed — while codec-local and
plain errors leave it alive. -/
def termContextModel (dead : Bool) (e : Option PgError) :
    Bool × Option PgError :=
  match e with
  | some (.protocolError s) => (true, some (.protocolError s))
  | _ => (dead, e)

namespace RowsState

/-- `Rows.Close` (`src/unnamed/part_001` lines 73–111): no-op when already
closed; otherwise releases the connection lock, latches `closed`, runs
`termContext`, and logs at Info level (with the `rowCount` value) on
success or at Error level (without it) on error.  The batch/pool release
calls carry no cursor-visible behavior. -/
def Close (rows : RowsState) : RowsState :=
  if rows.closed then rows
  else
    -- `unlockConn = false` afterwards whether or not the branch ran
    let r1 : RowsState := { rows with unlockConn := false, closed := true }
    match termContextModel r1.connDead r1.err with
    | (dead, none) =>
      { r1 with
        connDead := dead
        err := none
        loggedInfo := some r1.rowCount }
    | (dead, some e) =>
      { r1 with
        connDead := dead
        err := some e
        loggedError := true }

/-- `Rows.fatal` (`src/unnamed/part_001` lines 119–126): latches the first
error and auto-closes; later errors are dropped. -/
def fatal (rows : RowsState) (e : PgError) : RowsState :=
  if rows.err.isSome then rows
  else Close { rows with err := some e }

/-- The writes `frontend.Receive` performs into `conn.rmsgs` for one
delivered batch (stops at the first full-queue failure, as `Receive`
checks `WriteCapacity` after each write). -/
def writeMsgs (rm : ReceivedMessages CursorMsg) :
    List CursorMsg → ReceivedMessages CursorMsg
  | [] => rm
  | m :: rest =>
    match rm.Write m none with
    | .ok rm2 => writeMsgs rm2 rest
    | .error _ => rm

/-- `Rows.batchRead` (`src/unnamed/part_001` lines 241–252): no-op when
closed; otherwise one `frontend.Receive` call — a delivery fills `rmsgs`,
a timeout is returned without killing the connection, any other error (or
an exhausted source) is returned after `conn.die`. -/
def batchRead (rows : RowsState) : Option PgError × RowsState :=
  if rows.closed then (none, rows)
  else
    match rows.incoming with
    | [] => (some (.plainError "io eof"), { rows with connDead := true })
    | .deliver ms :: rest =>
      (none, { rows with incoming := rest, rmsgs := writeMsgs rows.rmsgs ms })
    | .timeoutFail :: rest =>
      (some (.plainError "timeout"), { rows with incoming := rest })
    | .ioFail :: rest =>
      (some (.plainError "io"),
       { rows with incoming := rest, connDead := true })

/-- The message loop of `Rows.BatchNext` (`src/unnamed/part_001` lines
153–212): `for idx := rows.conn.rmsgs.Readable(); idx > 0; idx--`.
`.inl (n, rows)` is a `return n` from inside the loop, `.inr rows` is
falling through to the code after the loop (loop exhausted or
`break outer`). -/
def drain (rows : RowsState) : Nat → (Nat × RowsState) ⊕ RowsState
  | 0 => .inr rows
  | idx + 1 =>
    match rows.rmsgs.Read with
    | .error _ => .inl (0, rows.fatal (.plainError "no message"))
    | .ok (p, rm2) =>
      let rows1 : RowsState := { rows with rmsgs := rm2 }
      match p.1 with
      | none =>
        -- a nil interface in a readable slot would make the Go code panic
        -- in `msg.Decode`; unreachable for queues filled by `Write`
        .inl (0, rows1.fatal (.plainError "nil message"))
      | some msg =>
        -- lines 161–164: un-read a CommandComplete if rows are buffered
        if msg = .cmdComplete ∧ 0 < rows1.pendingRowCount then
          .inl (rows1.pendingRowCount, { rows1 with rmsgs := rm2.Backward })
        else
          match msg with
          | .badDecode e => .inl (0, rows1.fatal (.plainError e))
          | .rowDesc oids =>
            -- lines 172–182: install fields, then resolve each OID
            let rows2 : RowsState := { rows1 with fields := oids }
            match oids.find? (fun o => ! rows1.connInfo o) with
            | some o =>
              .inl (0, rows2.fatal (.plainError ("unknown oid: " ++ toString o)))
            | none => drain rows2 idx
          | .dataRow vals =>
            -- lines 183–200
            if vals.length ≠ rows1.fields.length then
              .inl (0, rows1.fatal (.protocolError
                ("Row description field count (" ++
                 toString rows1.fields.length ++
                 ") and data row field count (" ++ toString vals.length ++
                 ") do not match")))
            else
              let rows2 : RowsState := { rows1 with
                values := rows1.values.set rows1.pendingRowCount vals
                rowCount := rows1.rowCount + 1
                pendingRowCount := rows1.pendingRowCount + 1 }
              if rows2.values.length ≤ rows2.pendingRowCount then .inr rows2
              else drain rows2 idx
          | .cmdComplete =>
            -- lines 201–204 (pendingRowCount = 0 here)
            .inl (0, Close { rows1 with rowCount := rows1.rowCount + 1 })
          | .ctxMsg none => drain rows1 idx
          | .ctxMsg (some e) => .inl (0, rows1.fatal e)

/-- `Rows.BatchNext` (`src/unnamed/part_001` lines 138–223), fuelled for
its self-recursion at line 220 (`none` = fuel ran out). -/
def BatchNext (fuel : Nat) (rows : RowsState) : Option (Nat × RowsState) :=
  match fuel with
  | 0 => none
  | fuel + 1 =>
    if rows.closed then some (0, rows)
    else if rows.rowIdx < rows.pendingRowCount then
      some (rows.pendingRowCount - rows.rowIdx, rows)
    else
      let rows0 : RowsState :=
        { rows with columnIdx := 0, rowIdx := 0, pendingRowCount := 0 }
      match drain rows0 rows0.rmsgs.Readable with
      | .inl res => some res
      | .inr rows1 =>
        match rows1.batchRead with
        | (some e, rows2) => some (0, rows2.fatal e)
        | (none, rows2) =>
          if rows2.pendingRowCount = 0 then BatchNext fuel rows2
          else some (rows2.pendingRowCount, rows2)

/-- `Rows.Next` (`src/unnamed/part_001` lines 131–133):
`rows.BatchNext() > 0`. -/
def Next (fuel : Nat) (rows : RowsState) : Option (Bool × RowsState) :=
  (BatchNext fuel rows).map (fun p => (decide (0 < p.1), p.2))

/-- `Rows.nextColumn` (`src/unnamed/part_001` lines 225–238): yields the
current column's raw bytes (`none` = SQL NULL) and advances `columnIdx`;
returns `ok = false` when closed or out of columns (the field-description
pointer it also returns only feeds the codec dispatch, abstracted in
`ScanDest`). -/
def nextColumn (rows : RowsState) :
    Option (List Nat) × Bool × RowsState :=
  if rows.closed then (none, false, rows)
  else if rows.fields.length ≤ rows.columnIdx then
    (none, false, rows.fatal (.protocolError "No next column available"))
  else
    ((rows.values.getD rows.rowIdx []).getD rows.columnIdx none,
     true, { rows with columnIdx := rows.columnIdx + 1 })

end RowsState

/-- Modelled from the spec: a `Scan` destination (§4.4) — either the Go
`nil` (column skipped) or a destination whose decode through the codec
registry dispatch succeeds or fails with a cause. -/
inductive ScanDest where
  | nilDest
  | decoder (res : Option String)
  deriving DecidableEq, Repr

namespace RowsState

/-- The per-destination loop of `Rows.Scan` (`src/unnamed/part_001` lines
283–348): fetch the column, skip `nil` destinations (`continue`, which
also skips the error check), latch decode failures as
`scanArgError{col}`, and return as soon as `rows.Err()` is non-nil; after
the last destination, advance `rowIdx` and return `nil`. -/
def scanLoop : RowsState → List ScanDest → Nat → Option PgError × RowsState
  | rows, [], _ => (none, { rows with rowIdx := rows.rowIdx + 1 })
  | rows, d :: rest, col =>
    let rows1 := (nextColumn rows).2.2
    match d with
    | .nilDest => scanLoop rows1 rest (col + 1)
    | .decoder res =>
      let rows2 := match res with
        | some cause => rows1.fatal (.scanArgError col cause)
        | none => rows1
      match rows2.err with
      | some e => (some e, rows2)
      | none => scanLoop rows2 rest (col + 1)

/-- `Rows.Scan` (`src/unnamed/part_001` lines 268–352): arity check
against `fields`, then the no-buffered-row check, then the column loop. -/
def Scan (rows : RowsState) (dest : List ScanDest) :
    Option PgError × RowsState :=
  if rows.fields.length ≠ dest.length then
    (some (.plainError ("Scan received wrong number of arguments, got " ++
        toString dest.length ++ " but expected " ++
        toString rows.fields.length)),
     rows.fatal (.plainError ("Scan received wrong number of arguments, got " ++
        toString dest.length ++ " but expected " ++
        toString rows.fields.length)))
  else if rows.pendingRowCount ≤ rows.rowIdx then
    (some (.plainError "no row data"), rows.fatal (.plainError "no row data"))
  else
    scanLoop { rows with columnIdx := 0 } dest 0

end RowsState

/-- One hex digit as its lowercase ASCII byte, as produced by
`hex.EncodeToString` and `%x`. -/
def hexDigit (n : Nat) : Nat := if n < 10 then 48 + n else 87 + n

/-- Lowercase hex encoding of a byte slice (`hex.EncodeToString` / `%x`):
two digits per byte. -/
def hexEncode : List Nat → List Nat
  | [] => []
  | b :: bs => hexDigit (b % 256 / 16) :: hexDigit (b % 256 % 16) :: hexEncode bs

/-- Decimal ASCII digits of `n`, as produced by `%d` for a non-negative
`int`. -/
def decDigits (n : Nat) : List Nat := (Nat.toDigits 10 n).map Char.toNat

/-- ASCII bytes of a Lean string literal (all literals used here are
ASCII), for spelling out the Go format-string output byte-exactly. -/
def strBytes (s : String) : List Nat := s.toList.map Char.toNat

/-- A `logQueryArgs` argument (`src/unnamed/part_000` lines 90–133), by
dynamic type: a Go `string` (a byte sequence — Go slicing is by byte), a
`[]byte`, or any value matching none of the switch cases (among the
remaining source cases, `*string`, `[][16]uint8` and `fmt.Stringer` are
outside the claim and not represented). -/
inductive QueryArg where
  | goStr (bytes : List Nat)
  | goBytes (bytes : List Nat)
  | other
  deriving DecidableEq, Repr

/-- A logged argument: either a replacement string (as bytes) or the
argument passed through unchanged. -/
inductive LoggedArg where
  | str (bytes : List Nat)
  | same (a : QueryArg)
  deriving DecidableEq, Repr

/-- The per-argument transformation of `logQueryArgs`
(`src/unnamed/part_000` lines 93–127): `[]byte` shorter than 64 bytes is
hex-encoded whole; otherwise the first 64 bytes are hex-encoded and a
`" (truncated k bytes)"` suffix records the remainder; a `string` longer
than 64 bytes keeps its first 64 bytes plus the same suffix, else passes
through. -/
def logQueryArg : QueryArg → LoggedArg
  | .goBytes v =>
    if v.length < 64 then .str (hexEncode v)
    else .str (hexEncode (v.take 64) ++ strBytes " (truncated " ++
      decDigits (v.length - 64) ++ strBytes " bytes)")
  | .goStr v =>
    if 64 < v.length then
      .str (v.take 64 ++ strBytes " (truncated " ++
        decDigits (v.length - 64) ++ strBytes " bytes)")
    else .same (.goStr v)
  | .other => .same .other

/-- `logQueryArgs` (`src/unnamed/part_000` lines 90–133): the element-wise
transformation (the Go loop appends one entry per argument). -/
def logQueryArgs (args : List QueryArg) : List LoggedArg :=
  args.map logQueryArg

/-- A freshly opened cursor whose queue holds exactly one message: the
`CommandComplete` of a query that produced no `DataRow` (empty select).
Row buffer capacity 4, no fields, nothing logged yet. -/
def demoC6 : RowsState :=
  { rmsgs :=
      { msgs := [some .cmdComplete, none, none, none]
        msgBodies := [none, none, none, none]
        rp := 0
        wp := 1
        readable := 1 }
    incoming := []
    values := List.replicate 4 []
    fields := []
    rowCount := 0
    columnIdx := 0
    err := none
    closed := false
    unlockConn := true
    connDead := false
    loggedInfo := none
    loggedError := false
    pendingRowCount := 0
    rowIdx := 0
    connInfo := fun _ => true }


/-- The cursor state after `BatchNext` consumes the `CommandComplete` of
`demoC6`. -/
def demoC6after : RowsState :=
  ((RowsState.BatchNext 1 demoC6).getD (0, demoC6)).2


/-- A cursor with a two-column `RowDescription` already installed
(`fields = [23, 23]`) whose queue holds one `DataRow` carrying three
values. -/
def demoC7 : RowsState :=
  { rmsgs :=
      { msgs := [some (.dataRow [some [49], some [50], some [51]]), none]
        msgBodies := [none, none]
        rp := 0
        wp := 1
        readable := 1 }
    incoming := []
    values := List.replicate 4 []
    fields := [23, 23]
    rowCount := 0
    columnIdx := 0
    err := none
    closed := false
    unlockConn := true
    connDead := false
    loggedInfo := none
    loggedError := false
    pendingRowCount := 0
    rowIdx := 0
    connInfo := fun _ => true }


/-- The queue of `demoC7` after its single `Read`. -/
def demoC7rm2 : ReceivedMessages CursorMsg :=
  { msgs := [some (.dataRow [some [49], some [50], some [51]]), none]
    msgBodies := [none, none]
    rp := 1
    wp := 1
    readable := 0 }


/-- A cursor positioned on one buffered two-column row (`fields =
[23, 23]`, `pendingRowCount = 1`, `rowIdx = 0`). -/
def demoC8 : RowsState :=
  { rmsgs :=
      { msgs := [none, none]
        msgBodies := [none, none]
        rp := 0
        wp := 0
        readable := 0 }
    incoming := []
    values := [[some [49], some [50]]]
    fields := [23, 23]
    rowCount := 1
    columnIdx := 0
    err := none
    closed := false
    unlockConn := true
    connDead := false
    loggedInfo := none
    loggedError := false
    pendingRowCount := 1
    rowIdx := 0
    connInfo := fun _ => true }


end Pgx

deriving instance DecidableEq for Except

namespace Pgx

open ReceivedMessages

/-- C3: immediately after a successful `Read` that returned `(m, b)`,
`Backward()` restores `rp` and `readable` (indeed the whole pre-`Read`
state, since `Read` touches no other field), so the next `Read` returns
the same `(m, b)` pair again. -/
theorem C3_backward_after_read {α : Type} (r r1 : ReceivedMessages α)
    (p : Option α × Option (List Nat))
    (hlen : r.readable ≤ r.msgs.length)
    (h : r.Read = .ok (p, r1)) :
    r1.Backward = r ∧ r1.Backward.Read = .ok (p, r1) := by
  have h0 : ¬ r.Readable = 0 := by
    intro h0
    rw [ReceivedMessages.Read, if_pos h0] at h
    exact Except.noConfusion h
  rw [ReceivedMessages.Read, if_neg h0] at h
  rw [Except.ok.injEq, Prod.mk.injEq] at h
  obtain ⟨hp, hr1⟩ := h
  have hread : 1 ≤ r.readable := Nat.one_le_iff_ne_zero.mpr h0
  have hback : r1.Backward = r := by
    subst hr1
    rw [ReceivedMessages.Backward]
    rw [if_neg ?_]
    · cases r with
    | mk msgs msgBodies rp wp readable =>
      simp only [ReceivedMessages.Len, ReceivedMessages.mk.injEq, and_true, true_and]
      simp only [ReceivedMessages.Readable] at hread
      constructor
      · by_cases hrp : rp = msgs.length - 1
        · simp only [hrp, if_pos rfl]
          simp
        · rw [if_neg hrp]
          simp
      · omega
    · cases r with
      | mk msgs msgBodies rp wp readable =>
        simp only [ReceivedMessages.WriteCapacity, ReceivedMessages.Len,
          ReceivedMessages.Readable] at *
        omega
  refine ⟨hback, ?_⟩
  rw [hback, ReceivedMessages.Read, if_neg h0, ← hp, hr1]

/-- Witness for C3 at a concrete queue: reading `(ParseComplete, [7])` and
then calling `Backward` restores the original state and re-reading yields
the same pair. -/
theorem C3_backward_after_read_witness :
    demoC3.readable ≤ demoC3.msgs.length ∧
    demoC3read.Backward = demoC3 ∧
    demoC3read.Backward.Read = .ok ((some .parseComplete, some [7]), demoC3read) :=
  ⟨by decide,
   C3_backward_after_read demoC3 demoC3read (some .parseComplete, some [7])
     (by decide) (by decide)⟩

/-- C5 (divergence evidence): on a state with one readable message, the
`frontend.go` `Forward` advances `rp` and drops `readable` to 0, but the
`part_003` variant (`ForwardNB`) *increments* `readable` to 2 (its source
executes `r.readable++`), so the two variants are not functionally
equivalent and `ForwardNB` does not skip a readable message. -/
theorem C5_forward_variants_diverge :
    demoFwd.Forward.readable = 0 ∧ demoFwd.Forward.rp = 1 ∧
    demoFwd.ForwardNB.readable = 2 ∧ demoFwd.ForwardNB.rp = 1 ∧
    demoFwd.ForwardNB ≠ demoFwd.Forward := by
  decide

/-- C10: `Kth(k)` returns the contents of slot `(rp + k) % Len` for *every*
`k`, with no comparison against `readable` (its result does not change if
`readable` is replaced by an arbitrary `n`), and it performs no state
update (it is a pure function of the queue). -/
theorem C10_kth_no_bounds_check {α : Type} (r : ReceivedMessages α)
    (k n : Nat) (_h : 0 < r.msgs.length) :
    r.Kth k =
      (r.msgs.getD ((r.rp + k) % r.Len) none,
       r.msgBodies.getD ((r.rp + k) % r.Len) none) ∧
    ({ r with readable := n } : ReceivedMessages α).Kth k = r.Kth k := by
  exact ⟨rfl, rfl⟩

/-- Witness for C10: on `demoKth` only one message is readable, yet
`Kth 1` returns the stale, already-read pair `(ParseComplete, [1])` from
slot `(rp + 1) % 2 = 0` instead of an error, and the result is unchanged
when `readable` is overwritten with 5. -/
theorem C10_kth_no_bounds_check_witness :
    0 < demoKth.msgs.length ∧ demoKth.readable = 1 ∧
    demoKth.Kth 1 = (some .parseComplete, some [1]) ∧
    ({ demoKth with readable := 5 } : ReceivedMessages BackendMessage).Kth 1 =
      demoKth.Kth 1 := by
  have h := C10_kth_no_bounds_check demoKth 1 5 (by decide)
  exact ⟨by decide, by decide, h.1.trans (by decide), h.2⟩

/-- C4 (divergence evidence): `SetCapacity(6)` on `demoSetCap` (capacity
4, readable pairs `[(BindComplete, [1]), (CloseComplete, [2])]`) neither
changes the capacity nor preserves the readable pairs.  The copied arrays
are discarded, but `rp` is still reset to 0 and `wp` to `readable`, so
the readable window shifts to the start of the old array and afterwards
reads `[(ParseComplete, [0]), (BindComplete, [1])]` — two stale,
already-read pairs — while `Len` stays 4, not 6.  On the reachable wrap
state `demoSetCapWrap` (`rp = 3`, one readable message), shrinking to
capacity 2 panics (`nmsgs[3:]` on a length-2, capacity-2 slice) instead
of keeping the newest pair. -/
theorem C4_setCapacity_loses_messages :
    demoSetCap.absQueue =
      [(some .bindComplete, some [1]), (some .closeComplete, some [2])] ∧
    (demoSetCap.SetCapacity 6).map ReceivedMessages.absQueue =
      some [(some .parseComplete, some [0]), (some .bindComplete, some [1])] ∧
    (demoSetCap.SetCapacity 6).map ReceivedMessages.absQueue ≠
      some demoSetCap.absQueue ∧
    (demoSetCap.SetCapacity 6).map ReceivedMessages.Len = some 4 ∧
    demoSetCapWrap.SetCapacity 2 = none := by
  decide

theorem getD_set_self {β : Type} (l : List β) (i : Nat) (x d : β)
    (h : i < l.length) : (l.set i x).getD i d = x := by
  rw [List.getD_eq_getElem?_getD, List.getElem?_set_eq_of_lt x h]
  rfl

theorem getD_set_ne {β : Type} (l : List β) {i j : Nat} (x d : β)
    (h : i ≠ j) : (l.set i x).getD j d = l.getD j d := by
  rw [List.getD_eq_getElem?_getD, List.getElem?_set_ne h,
    ← List.getD_eq_getElem?_getD]

theorem wrapSucc {L i : Nat} (h : i < L) :
    (if i = L - 1 then 0 else i + 1) = (i + 1) % L := by
  by_cases hi : i = L - 1
  · rw [if_pos hi]
    have hL : i + 1 = L := by omega
    rw [hL, Nat.mod_self]
  · rw [if_neg hi, Nat.mod_eq_of_lt (by omega)]

theorem absQueue_length {α : Type} (r : ReceivedMessages α) :
    r.absQueue.length = r.readable := by
  simp [absQueue]

theorem Read_eq_of_readable {α : Type} (r : ReceivedMessages α)
    (h0 : r.readable ≠ 0) :
    r.Read = .ok ((r.msgs.getD r.rp none, r.msgBodies.getD r.rp none),
      readNext r) := by
  rw [ReceivedMessages.Read]
  simp only [ReceivedMessages.Readable]
  rw [if_neg h0]
  rfl

theorem Read_eq_of_empty {α : Type} (r : ReceivedMessages α)
    (h0 : r.readable = 0) : r.Read = .error "no message" := by
  rw [ReceivedMessages.Read]
  simp only [ReceivedMessages.Readable]
  rw [if_pos h0]

theorem Write_eq_of_room {α : Type} (r : ReceivedMessages α) (m : α)
    (b : Option (List Nat)) (h : r.readable < r.msgs.length) :
    r.Write m b = .ok (writeNext r m b) := by
  rw [ReceivedMessages.Write, if_neg]
  · rfl
  · unfold ReceivedMessages.WriteCapacity ReceivedMessages.Len
      ReceivedMessages.Readable
    omega

theorem Write_eq_of_full {α : Type} (r : ReceivedMessages α) (m : α)
    (b : Option (List Nat)) (h : r.msgs.length ≤ r.readable) :
    r.Write m b = .error "short write" := by
  rw [ReceivedMessages.Write, if_pos]
  unfold ReceivedMessages.WriteCapacity ReceivedMessages.Len
    ReceivedMessages.Readable
  omega

theorem absQueue_readNext {α : Type} (r : ReceivedMessages α)
    (hInv : r.Inv) (h0 : r.readable ≠ 0) :
    r.absQueue =
      (r.msgs.getD r.rp none, r.msgBodies.getD r.rp none) ::
        (readNext r).absQueue := by
  obtain ⟨hb, hr, hw, hrp⟩ := hInv
  have hL : 0 < r.msgs.length := by omega
  have hrp' : r.rp < r.msgs.length := by
    rcases hrp with h | h
    · exact h
    · omega
  obtain ⟨k, hk⟩ : ∃ k, r.readable = k + 1 := ⟨r.readable - 1, by omega⟩
  have hk' : (readNext r).readable = k := by
    simp only [readNext]
    omega
  unfold ReceivedMessages.absQueue
  rw [hk, hk', List.range_succ_eq_map, List.map_cons, List.map_map]
  congr 1
  · simp [ReceivedMessages.Kth, ReceivedMessages.Len, Nat.mod_eq_of_lt hrp']
  · apply List.map_congr_left
    intro i _
    simp only [Function.comp, ReceivedMessages.Kth, readNext,
      ReceivedMessages.Len, wrapSucc hrp', Nat.mod_add_mod]
    have harith : r.rp + 1 + i = r.rp + (i + 1) := by omega
    rw [harith]

theorem Inv_readNext {α : Type} (r : ReceivedMessages α)
    (hInv : r.Inv) (h0 : r.readable ≠ 0) : (readNext r).Inv := by
  obtain ⟨hb, hr, hw, hrp⟩ := hInv
  have hL : 0 < r.msgs.length := by omega
  have hrp' : r.rp < r.msgs.length := by
    rcases hrp with h | h
    · exact h
    · omega
  refine ⟨hb, by simp [readNext]; omega, ?_, ?_⟩
  · simp only [readNext, ReceivedMessages.Len, wrapSucc hrp', Nat.mod_add_mod]
    have harith : r.rp + 1 + (r.readable - 1) = r.rp + r.readable := by omega
    rw [harith]
    exact hw
  · left
    simp only [readNext, ReceivedMessages.Len, wrapSucc hrp']
    exact Nat.mod_lt _ hL

theorem absQueue_writeNext {α : Type} (r : ReceivedMessages α) (m : α)
    (b : Option (List Nat)) (hInv : r.Inv)
    (hroom : r.readable < r.msgs.length) :
    (writeNext r m b).absQueue = r.absQueue ++ [(some m, b)] := by
  obtain ⟨hb, hr, hw, hrp⟩ := hInv
  have hL : 0 < r.msgs.length := by omega
  have hwp : r.wp < r.msgs.length := by
    rw [hw]; exact Nat.mod_lt _ hL
  have hlen : (writeNext r m b).msgs.length = r.msgs.length := by
    simp [writeNext]
  have hlenb : (writeNext r m b).msgBodies.length = r.msgBodies.length := by
    simp [writeNext]
  unfold ReceivedMessages.absQueue
  have hread : (writeNext r m b).readable = r.readable + 1 := rfl
  rw [hread, List.range_succ, List.map_append, List.map_singleton]
  congr 1
  · apply List.map_congr_left
    intro i hi
    rw [List.mem_range] at hi
    have hne : (r.rp + i) % r.msgs.length ≠ r.wp := by
      rw [hw]
      intro hcon
      have hmod : i % r.msgs.length = r.readable % r.msgs.length :=
        Nat.ModEq.add_left_cancel' r.rp hcon
      rw [Nat.mod_eq_of_lt (by omega), Nat.mod_eq_of_lt (by omega)] at hmod
      omega
    simp only [ReceivedMessages.Kth, writeNext, ReceivedMessages.Len,
      List.length_set]
    rw [getD_set_ne _ _ _ (Ne.symm hne), getD_set_ne _ _ _ (Ne.symm hne)]
  · simp only [ReceivedMessages.Kth, writeNext, ReceivedMessages.Len,
      List.length_set]
    rw [← hw]
    rw [getD_set_self _ _ _ _ hwp, getD_set_self _ _ _ _ (by rw [hb]; exact hwp)]

theorem Inv_writeNext {α : Type} (r : ReceivedMessages α) (m : α)
    (b : Option (List Nat)) (hInv : r.Inv)
    (hroom : r.readable < r.msgs.length) : (writeNext r m b).Inv := by
  obtain ⟨hb, hr, hw, hrp⟩ := hInv
  have hL : 0 < r.msgs.length := by omega
  have hwp : r.wp < r.msgs.length := by
    rw [hw]; exact Nat.mod_lt _ hL
  refine ⟨by simp [writeNext, hb], by simp [writeNext]; omega, ?_, ?_⟩
  · simp only [writeNext, ReceivedMessages.Len, List.length_set, wrapSucc hwp]
    rw [hw, Nat.mod_add_mod, Nat.add_assoc]
  · left
    simp only [writeNext, List.length_set]
    rcases hrp with h | h
    · exact h
    · omega

/-- C2: for every well-formed queue and every interleaving of `Write` and
`Read` operations, the implementation produces exactly the events of a
plain FIFO list of capacity `Len`: each successful `Read` returns the
earliest pair written among those not yet read, and `Read` on an empty
queue returns an error.  (The final states also remain related, so this
holds for every continuation.) -/
theorem C2_fifo_queue (ops : List (QOp BackendMessage))
    (r : ReceivedMessages BackendMessage) (hInv : r.Inv) :
    (runImpl r ops).2 = (runSpec r.msgs.length r.absQueue ops).2 ∧
    (runImpl r ops).1.absQueue = (runSpec r.msgs.length r.absQueue ops).1 ∧
    (runImpl r ops).1.Inv ∧
    (runImpl r ops).1.msgs.length = r.msgs.length := by
  induction ops generalizing r with
  | nil => exact ⟨rfl, rfl, hInv, rfl⟩
  | cons op ops ih =>
    cases op with
    | wr m b =>
      by_cases hroom : r.readable < r.msgs.length
      · have hwr := Write_eq_of_room r m b hroom
        have habs := absQueue_writeNext r m b hInv hroom
        have hInv' := Inv_writeNext r m b hInv hroom
        have hlen' : (writeNext r m b).msgs.length = r.msgs.length := by
          simp [writeNext]
        have ihw := ih (writeNext r m b) hInv'
        rw [hlen', habs] at ihw
        have hq : r.absQueue.length < r.msgs.length := by
          rw [absQueue_length]; exact hroom
        simp only [runImpl, hwr, runSpec, if_pos hq]
        exact ⟨by rw [ihw.1], by rw [ihw.2.1], ihw.2.2.1,
          by rw [ihw.2.2.2]⟩
      · have hwr := Write_eq_of_full r m b (by omega)
        have ihw := ih r hInv
        have hq : ¬ r.absQueue.length < r.msgs.length := by
          rw [absQueue_length]; omega
        simp only [runImpl, hwr, runSpec, if_neg hq]
        exact ⟨by rw [ihw.1], by rw [ihw.2.1], ihw.2.2.1, by rw [ihw.2.2.2]⟩
    | rd =>
      by_cases h0 : r.readable = 0
      · have hrd := Read_eq_of_empty r h0
        have hq : r.absQueue = [] := by simp [absQueue, h0]
        have ihw := ih r hInv
        simp only [runImpl, hrd, runSpec, hq]
        rw [hq] at ihw
        exact ⟨by rw [ihw.1], by rw [ihw.2.1], ihw.2.2.1, by rw [ihw.2.2.2]⟩
      · have hrd := Read_eq_of_readable r h0
        have habs := absQueue_readNext r hInv h0
        have hInv' := Inv_readNext r hInv h0
        have hlen' : (readNext r).msgs.length = r.msgs.length := rfl
        have ihw := ih (readNext r) hInv'
        rw [hlen'] at ihw
        simp only [runImpl, hrd, habs, runSpec]
        exact ⟨by rw [ihw.1], by rw [ihw.2.1], ihw.2.2.1,
          by rw [ihw.2.2.2]⟩

/-- Witness for C2: starting from a fresh two-slot queue, the op sequence
`demoOps` produces the FIFO event trace - both writes succeed, the reads
return `(ParseComplete, [1])` then `(BindComplete, [2])`, and the third
read errors. -/
theorem C2_fifo_queue_witness :
    (NewReceivedMessages BackendMessage 2).Inv ∧
    (runImpl (NewReceivedMessages BackendMessage 2) demoOps).2 =
      (runSpec (NewReceivedMessages BackendMessage 2).msgs.length
        (NewReceivedMessages BackendMessage 2).absQueue demoOps).2 ∧
    (runImpl (NewReceivedMessages BackendMessage 2) demoOps).2 =
      [.wrote true, .wrote true,
       .readRes (some (some .parseComplete, some [1])),
       .readRes (some (some .bindComplete, some [2])),
       .readRes none] :=
  ⟨by decide, (C2_fifo_queue demoOps _ (by decide)).1, by decide⟩

theorem Write_ok_facts {α : Type} (r r2 : ReceivedMessages α) (m : α)
    (b : Option (List Nat)) (h : r.Write m b = .ok r2) :
    r2.readable = r.readable + 1 ∧ r2.msgs.length = r.msgs.length ∧
    r.readable < r.msgs.length := by
  by_cases hcap : r.WriteCapacity = 0
  · rw [ReceivedMessages.Write, if_pos hcap] at h
    exact Except.noConfusion h
  · rw [ReceivedMessages.Write, if_neg hcap] at h
    rw [Except.ok.injEq] at h
    subst h
    refine ⟨rfl, by simp, ?_⟩
    unfold ReceivedMessages.WriteCapacity ReceivedMessages.Len
      ReceivedMessages.Readable at hcap
    omega

theorem receiveLoop_final_facts :
    ∀ (fuel : Nat) (ph : RcvPhase) (buf : List Nat) (src : List ReadEvent)
      (r : ReceivedMessages BackendMessage) (hAcc : List Nat)
      (hNeed w : Nat)
      (res : Except (String × ReceivedMessages BackendMessage × Nat)
        (ReceivedMessages BackendMessage × List Nat × List ReadEvent × Nat)),
      receiveLoop fuel ph buf src r hAcc hNeed w = some res →
      (receiveFinal res).1.msgs.length = r.msgs.length ∧
      (receiveFinal res).1.readable + w = r.readable + (receiveFinal res).2 ∧
      w ≤ (receiveFinal res).2 ∧
      ((receiveFinal res).2 = w ∨
        (receiveFinal res).1.readable ≤ r.msgs.length) ∧
      (∀ r' buf' src' w', res = .ok (r', buf', src', w') →
        1 ≤ r'.readable) := by
  intro fuel
  induction fuel with
  | zero =>
    intro ph buf src r hAcc hNeed w res h
    simp [receiveLoop] at h
  | succ fuel ih =>
    intro ph buf src r hAcc hNeed w res h
    cases ph with
    | outer =>
      simp only [receiveLoop] at h
      by_cases hc : r.Readable = 0 ∨ hNeed < 5
      · rw [if_pos hc] at h
        cases hrf : readFromSource buf src with
        | error e =>
          rw [hrf] at h
          rw [Option.some.injEq] at h
          subst h
          refine ⟨rfl, rfl, le_refl _, Or.inl rfl, ?_⟩
          intro r' buf' src' w' hres
          exact Except.noConfusion hres
        | ok p =>
          obtain ⟨buf2, src2⟩ := p
          rw [hrf] at h
          exact ih .inner buf2 src2 r hAcc hNeed w res h
      · rw [if_neg hc] at h
        rw [Option.some.injEq] at h
        subst h
        have hne : r.Readable ≠ 0 := fun hh => hc (Or.inl hh)
        unfold ReceivedMessages.Readable at hne
        refine ⟨rfl, rfl, le_refl _, Or.inl rfl, ?_⟩
        intro r' buf' src' w' hres
        rw [Except.ok.injEq, Prod.mk.injEq] at hres
        obtain ⟨h1, -⟩ := hres
        subst h1
        omega
    | inner =>
      simp only [receiveLoop] at h
      by_cases hbuf : buf.length = 0
      · rw [if_pos hbuf] at h
        exact ih .outer buf src r hAcc hNeed w res h
      · rw [if_neg hbuf] at h
        by_cases hpart : 0 < hNeed - min hNeed buf.length
        · rw [if_pos hpart] at h
          exact ih .outer _ src r _ _ w res h
        · rw [if_neg hpart] at h
          cases hds : decodeStep (buf.drop (min hNeed buf.length)) src
              (hAcc ++ buf.take (min hNeed buf.length)) with
          | error e =>
            rw [hds] at h
            dsimp only at h
            rw [Option.some.injEq] at h
            subst h
            refine ⟨rfl, rfl, le_refl _, Or.inl rfl, ?_⟩
            intro r' buf' src' w' hres
            exact Except.noConfusion hres
          | ok p =>
            obtain ⟨mBody, buf3, src3⟩ := p
            rw [hds] at h
            dsimp only at h
            cases hfw : backendMsgFlyweights
                ((hAcc ++ buf.take (min hNeed buf.length)).getD 0 0) with
            | none =>
              rw [hfw] at h
              dsimp only at h
              rw [Option.some.injEq] at h
              subst h
              refine ⟨rfl, rfl, le_refl _, Or.inl rfl, ?_⟩
              intro r' buf' src' w' hres
              exact Except.noConfusion hres
            | some msg =>
              rw [hfw] at h
              dsimp only at h
              cases hwr : r.Write msg mBody with
              | error e =>
                rw [hwr] at h
                dsimp only at h
                rw [Option.some.injEq] at h
                subst h
                refine ⟨rfl, rfl, le_refl _, Or.inl rfl, ?_⟩
                intro r' buf' src' w' hres
                exact Except.noConfusion hres
              | ok r2 =>
                rw [hwr] at h
                dsimp only at h
                obtain ⟨hw1, hw2, hw3⟩ := Write_ok_facts r r2 msg mBody hwr
                by_cases hfull : r2.WriteCapacity = 0
                · rw [if_pos hfull] at h
                  rw [Option.some.injEq] at h
                  subst h
                  dsimp only [receiveFinal]
                  refine ⟨by omega, by omega, by omega,
                    Or.inr (by omega), ?_⟩
                  intro r' buf' src' w' hres
                  rw [Except.ok.injEq, Prod.mk.injEq] at hres
                  obtain ⟨h1, -⟩ := hres
                  subst h1
                  omega
                · rw [if_neg hfull] at h
                  obtain ⟨k1, k2, k3, k4, k5⟩ :=
                    ih .inner buf3 src3 r2 [] 5 (w + 1) res h
                  refine ⟨by omega, by omega, by omega, ?_, k5⟩
                  rcases k4 with k4 | k4
                  · right; omega
                  · right; omega

/-- C1: on a queue of positive capacity, every return of
`Frontend.Receive` - with or without error - has written at most the
queue's `WriteCapacity()` at the time of the call, and a return without
error additionally leaves at least one readable message. -/
theorem C1_receive_fills_queue (fuel : Nat) (buf : List Nat)
    (src : List ReadEvent) (r : ReceivedMessages BackendMessage)
    (res : Except (String × ReceivedMessages BackendMessage × Nat)
      (ReceivedMessages BackendMessage × List Nat × List ReadEvent × Nat))
    (_hpos : 0 < r.Len)
    (h : Receive fuel buf src r = some res) :
    (receiveFinal res).2 ≤ r.WriteCapacity ∧
    (∀ r' buf' src' w, res = .ok (r', buf', src', w) →
      1 ≤ r'.Readable ∧ w ≤ r.WriteCapacity) := by
  obtain ⟨k1, k2, k3, k4, k5⟩ :=
    receiveLoop_final_facts fuel .outer buf src r [] 5 0 res h
  have hbound : (receiveFinal res).2 ≤ r.WriteCapacity := by
    unfold ReceivedMessages.WriteCapacity ReceivedMessages.Len
      ReceivedMessages.Readable
    omega
  refine ⟨hbound, ?_⟩
  intro r' buf' src' w hres
  have hfin : receiveFinal res = (r', w) := by
    rw [hres]
    rfl
  refine ⟨?_, ?_⟩
  · unfold ReceivedMessages.Readable
    exact k5 r' buf' src' w hres
  · rw [hfin] at hbound
    exact hbound

/-- Witness for C1: receiving the single wire message `Z 00 00 00 04` into
a fresh capacity-3 queue returns without error having written one message;
one message is readable and `1 ≤ WriteCapacity = 3`. -/
theorem C1_receive_fills_queue_witness :
    0 < (NewReceivedMessages BackendMessage 3).Len ∧
    (1 ≤ demoRecvAfter.Readable ∧
      1 ≤ (NewReceivedMessages BackendMessage 3).WriteCapacity) :=
  ⟨by decide,
   (C1_receive_fills_queue 20 [] [.chunk [90, 0, 0, 0, 4]]
      (NewReceivedMessages BackendMessage 3)
      (.ok (demoRecvAfter, [], [], 1)) (by decide) rfl).2
     demoRecvAfter [] [] 1 rfl⟩

/-- C9: `logQueryArgs` truncates long arguments - a string longer than 64
bytes becomes its first 64 bytes plus `" (truncated k bytes)"` with
`k = len - 64`; a `[]byte` shorter than 64 bytes is hex-encoded in full;
a `[]byte` of 64 bytes or more becomes the hex of its first 64 bytes plus
the same suffix. -/
theorem C9_logQueryArgs_truncation (s bshort blong : List Nat)
    (hs : 64 < s.length) (hb : bshort.length < 64) (hl : 64 ≤ blong.length) :
    logQueryArg (.goStr s) =
      .str (s.take 64 ++ strBytes " (truncated " ++
        decDigits (s.length - 64) ++ strBytes " bytes)") ∧
    logQueryArg (.goBytes bshort) = .str (hexEncode bshort) ∧
    logQueryArg (.goBytes blong) =
      .str (hexEncode (blong.take 64) ++ strBytes " (truncated " ++
        decDigits (blong.length - 64) ++ strBytes " bytes)") := by
  refine ⟨?_, ?_, ?_⟩
  · simp only [logQueryArg]
    rw [if_pos hs]
  · simp only [logQueryArg]
    rw [if_pos hb]
  · simp only [logQueryArg]
    rw [if_neg (by omega)]

set_option maxRecDepth 8000 in
/-- Witness for C9: a 200-byte string of `a`s logs as 64 `a`s followed by
`" (truncated 136 bytes)"`; the bytes `0x02 0xab` log as `"02ab"`; a
64-byte slice logs as its full hex plus `" (truncated 0 bytes)"`. -/
theorem C9_logQueryArgs_truncation_witness :
    64 < (List.replicate 200 97 : List Nat).length ∧
    ([2, 171] : List Nat).length < 64 ∧
    64 ≤ (List.replicate 64 7 : List Nat).length ∧
    logQueryArg (.goStr (List.replicate 200 97)) =
      .str (List.replicate 64 97 ++ strBytes " (truncated 136 bytes)") ∧
    logQueryArg (.goBytes [2, 171]) = .str (strBytes "02ab") ∧
    logQueryArg (.goBytes (List.replicate 64 7)) =
      .str (hexEncode (List.replicate 64 7) ++ strBytes " (truncated 0 bytes)") := by
  have h := C9_logQueryArgs_truncation (List.replicate 200 97) [2, 171]
    (List.replicate 64 7) (by decide) (by decide) (by decide)
  exact ⟨by decide, by decide, by decide, h.1.trans (by decide),
    h.2.1.trans (by decide), h.2.2.trans (by decide)⟩

/-- C6 (divergence evidence): on an empty result, `BatchNext` consuming the
`CommandComplete` closes the cursor, makes `Next` return `false` and leaves
`Err() = nil` - but the `rowCount` it logs on `Close` is `1`, not `0`,
because the `CommandComplete` branch executes `rows.rowCount++` before
closing. -/
theorem C6_empty_select_logs_one :
    (RowsState.BatchNext 1 demoC6).map
      (fun p => (p.1, p.2.closed, p.2.err, p.2.loggedInfo)) =
      some (0, true, none, some 1) ∧
    (RowsState.Next 1 demoC6after).map (fun p => p.1) = some false ∧
    demoC6after.loggedInfo ≠ some 0 := by
  refine ⟨by decide, by decide, by decide⟩


/-- C7: when `BatchNext` reads a decoded `DataRow` whose value count
differs from the installed field count, the cursor is latched fatal with
`ProtocolError("Row description field count (n) and data row field count
(m) do not match")` (with the respective counts), it is closed, and the
connection is killed. -/
theorem C7_datarow_mismatch (fuel : Nat) (rows : RowsState)
    (vals : List (Option (List Nat))) (b : Option (List Nat))
    (rm2 : ReceivedMessages CursorMsg) (k : Nat)
    (hclosed : rows.closed = false) (herr : rows.err = none)
    (hpend : rows.pendingRowCount ≤ rows.rowIdx)
    (hread : rows.rmsgs.Readable = k + 1)
    (hrd : rows.rmsgs.Read = .ok ((some (.dataRow vals), b), rm2))
    (hmis : vals.length ≠ rows.fields.length) :
    (RowsState.BatchNext (fuel + 1) rows).map
      (fun p => (p.1, p.2.err, p.2.closed, p.2.connDead)) =
      some (0, some (.protocolError ("Row description field count (" ++
          toString rows.fields.length ++
          ") and data row field count (" ++ toString vals.length ++
          ") do not match")), true, true) := by
  simp only [RowsState.BatchNext, hclosed]
  rw [if_neg (by simp)]
  rw [if_neg (by omega)]
  rw [hread]
  simp only [RowsState.drain]
  rw [hrd]
  dsimp only
  rw [if_neg (by simp)]
  rw [if_pos (by simpa using hmis)]
  dsimp only
  simp only [RowsState.fatal, herr, Option.isSome_none, Bool.false_eq_true,
    if_false, RowsState.Close, hclosed, termContextModel]
  rfl


/-- Witness for C7: with 2 declared fields and a 3-value `DataRow`,
`BatchNext` returns 0 with the exact error
`ProtocolError("Row description field count (2) and data row field count
(3) do not match")`, the cursor closed and the connection dead. -/
theorem C7_datarow_mismatch_witness :
    demoC7.closed = false ∧ demoC7.err = none ∧
    demoC7.pendingRowCount ≤ demoC7.rowIdx ∧
    demoC7.rmsgs.Readable = 0 + 1 ∧
    demoC7.rmsgs.Read =
      .ok ((some (.dataRow [some [49], some [50], some [51]]), none),
        demoC7rm2) ∧
    ([some [49], some [50], some [51]] :
        List (Option (List Nat))).length ≠ demoC7.fields.length ∧
    (RowsState.BatchNext 1 demoC7).map
      (fun p => (p.1, p.2.err, p.2.closed, p.2.connDead)) =
      some (0, some (.protocolError
        "Row description field count (2) and data row field count (3) do not match"),
        true, true) :=
  ⟨by decide, by decide, by decide, by decide, by decide, by decide,
   (C7_datarow_mismatch 0 demoC7 [some [49], some [50], some [51]] none
      demoC7rm2 0 (by decide) (by decide) (by decide) (by decide)
      (by decide) (by decide)).trans (by decide)⟩


theorem Close_rowIdx (rows : RowsState) :
    (RowsState.Close rows).rowIdx = rows.rowIdx := by
  rw [RowsState.Close]
  split
  · rfl
  · dsimp only
    cases herr : rows.err with
    | none => rfl
    | some e => cases e <;> rfl


theorem fatal_rowIdx (rows : RowsState) (e : PgError) :
    (rows.fatal e).rowIdx = rows.rowIdx := by
  rw [RowsState.fatal]
  split
  · rfl
  · rw [Close_rowIdx]


theorem nextColumn_rowIdx (rows : RowsState) :
    ((RowsState.nextColumn rows).2.2).rowIdx = rows.rowIdx := by
  rw [RowsState.nextColumn]
  split
  · rfl
  · split
    · rw [fatal_rowIdx]
    · rfl


theorem scanLoop_none_rowIdx :
    ∀ (dest : List ScanDest) (rows : RowsState) (col : Nat),
      (RowsState.scanLoop rows dest col).1 = none →
      (RowsState.scanLoop rows dest col).2.rowIdx = rows.rowIdx + 1 := by
  intro dest
  induction dest with
  | nil =>
    intro rows col _
    simp [RowsState.scanLoop]
  | cons d rest ih =>
    intro rows col h
    cases d with
    | nilDest =>
      simp only [RowsState.scanLoop] at h ⊢
      rw [ih _ _ h, nextColumn_rowIdx]
    | decoder res =>
      simp only [RowsState.scanLoop] at h ⊢
      cases res with
      | none =>
        dsimp only at h ⊢
        cases herr : ((RowsState.nextColumn rows).2.2).err with
        | some e =>
          rw [herr] at h
          simp at h
        | none =>
          rw [herr] at h
          dsimp only at h ⊢
          rw [ih _ _ h, nextColumn_rowIdx]
      | some cause =>
        dsimp only at h ⊢
        cases herr : (((RowsState.nextColumn rows).2.2).fatal
            (.scanArgError col cause)).err with
        | some e =>
          rw [herr] at h
          simp at h
        | none =>
          rw [herr] at h
          dsimp only at h ⊢
          rw [ih _ _ h, fatal_rowIdx, nextColumn_rowIdx]


/-- C8: a `Scan` whose destination count `m` differs from the field count
`n` returns exactly the error `"Scan received wrong number of arguments,
got m but expected n"` and latches the cursor closed (after which
`BatchNext` returns 0 and the state no longer changes); and every `Scan`
that returns `nil` advances `rowIdx` by exactly 1. -/
theorem C8_scan_arity_and_rowidx (rows : RowsState) (dest : List ScanDest)
    (fuel : Nat) :
    (rows.err = none → rows.closed = false →
      rows.fields.length ≠ dest.length →
      (RowsState.Scan rows dest).1 =
        some (.plainError ("Scan received wrong number of arguments, got " ++
          toString dest.length ++ " but expected " ++
          toString rows.fields.length)) ∧
      (RowsState.Scan rows dest).2.closed = true ∧
      RowsState.BatchNext (fuel + 1) (RowsState.Scan rows dest).2 =
        some (0, (RowsState.Scan rows dest).2)) ∧
    ((RowsState.Scan rows dest).1 = none →
      (RowsState.Scan rows dest).2.rowIdx = rows.rowIdx + 1) := by
  constructor
  · intro herr hclosed hmis
    rw [RowsState.Scan, if_pos hmis]
    have hcl : (rows.fatal (.plainError
        ("Scan received wrong number of arguments, got " ++
          toString dest.length ++ " but expected " ++
          toString rows.fields.length))).closed = true := by
      rw [RowsState.fatal]
      rw [if_neg (by simp [herr])]
      rw [RowsState.Close]
      rw [if_neg (by simp [hclosed])]
      dsimp only
      simp [termContextModel]
    exact ⟨rfl, hcl, by simp [RowsState.BatchNext, hcl]⟩
  · intro h
    by_cases h1 : rows.fields.length ≠ dest.length
    · rw [RowsState.Scan, if_pos h1] at h
      simp at h
    · rw [RowsState.Scan, if_neg h1] at h ⊢
      by_cases h2 : rows.pendingRowCount ≤ rows.rowIdx
      · rw [if_pos h2] at h
        simp at h
      · rw [if_neg h2] at h ⊢
        have hfin := scanLoop_none_rowIdx dest
          { rows with columnIdx := 0 } 0 h
        simpa using hfin


/-- Witness for C8: `Scan` with one destination on the two-column row of
`demoC8` fails with `"Scan received wrong number of arguments, got 1 but
expected 2"`, closes the cursor and leaves `BatchNext` returning 0; `Scan`
with two succeeding destinations returns `nil` and advances `rowIdx` from
0 to 1. -/
theorem C8_scan_arity_and_rowidx_witness :
    demoC8.err = none ∧ demoC8.closed = false ∧
    demoC8.fields.length ≠ ([.decoder none] : List ScanDest).length ∧
    (RowsState.Scan demoC8 [.decoder none]).1 =
      some (.plainError
        "Scan received wrong number of arguments, got 1 but expected 2") ∧
    (RowsState.Scan demoC8 [.decoder none]).2.closed = true ∧
    RowsState.BatchNext 1 (RowsState.Scan demoC8 [.decoder none]).2 =
      some (0, (RowsState.Scan demoC8 [.decoder none]).2) ∧
    (RowsState.Scan demoC8 [.decoder none, .decoder none]).1 = none ∧
    (RowsState.Scan demoC8 [.decoder none, .decoder none]).2.rowIdx =
      demoC8.rowIdx + 1 := by
  have ha := (C8_scan_arity_and_rowidx demoC8 [.decoder none] 0).1
    (by decide) (by decide) (by decide)
  have hb := (C8_scan_arity_and_rowidx demoC8
    [.decoder none, .decoder none] 0).2 (by decide)
  exact ⟨by decide, by decide, by decide, ha.1.trans (by decide), ha.2.1,
    ha.2.2, by decide, hb⟩


end Pgx
